import Mathlib

/-!
Verification of the Data-Annotation Quality-Evaluation dashboard.

The repository's frontend (`src/App_20250924034631.js`) is embedded directly:
the option lists, the dashboard state hooks, and the handlers
`submitAnnotation`, `submitPairwiseComparison`, `handleIssueToggle`, the
`progress` computation and the Previous/Next/auto-advance index updates.
JavaScript strings are `String`, the numeric sample index is `Int`
(JS arithmetic on these small integers is exact), JS array indexing is
`jsIndex?`, and a handler that returns without issuing a POST is modelled
as returning `none` instead of `some` request payload.

The FastAPI backend (`backend/server.py`) is not part of the given sources;
where a claim depends on it, the backend operation is modelled from the
spec's words and the definition's doc comment says so.
-/

namespace DataAnnot

/-- A text sample as the frontend receives it: `id`, `text`, optional
`source` and `topic` (`currentSample.topic && ...` guards in the JSX). -/
structure TextSample where
  id : String
  text : String
  source : Option String := none
  topic : Option String := none
deriving Repr, DecidableEq

/-- One entry of `qualityOptions` (App.js lines 35-39). -/
structure QualityOption where
  value : String
  label : String
  color : String
deriving Repr, DecidableEq

/-- `qualityOptions` from App.js lines 35-39. -/
def qualityOptions : List QualityOption :=
  [ { value := "good", label := "Good", color := "bg-green-500" },
    { value := "average", label := "Average", color := "bg-yellow-500" },
    { value := "poor", label := "Poor", color := "bg-red-500" } ]

/-- One entry of `issueOptions` (App.js lines 41-46). -/
structure IssueOption where
  value : String
  label : String
deriving Repr, DecidableEq

/-- `issueOptions` from App.js lines 41-46. -/
def issueOptions : List IssueOption :=
  [ { value := "grammar_error", label := "Grammar Error" },
    { value := "irrelevant_content", label := "Irrelevant Content" },
    { value := "harmful_unsafe", label := "Harmful/Unsafe" },
    { value := "incomplete_truncated", label := "Incomplete/Truncated" } ]

/-- The selectable quality values: the `value` fields of `qualityOptions`. -/
def qualityValues : List String := qualityOptions.map (·.value)

/-- The selectable issue values: the `value` fields of `issueOptions`. -/
def issueValues : List String := issueOptions.map (·.value)

/-- The request body `annotationData` built by `submitAnnotation`
(App.js lines 104-109). -/
structure AnnotationData where
  text_sample_id : String
  quality_level : String
  issue_tags : List String
  notes : Option String
deriving Repr, DecidableEq

/-- The request body `comparisonData` built by `submitPairwiseComparison`
(App.js lines 139-143). -/
structure ComparisonData where
  text_a_id : String
  text_b_id : String
  better_text_id : String
deriving Repr, DecidableEq

/-- The Dashboard component's state hooks that the annotation flow reads and
writes (App.js lines 20-29): `textSamples`, `currentSampleIndex`,
`selectedQuality`, `selectedIssues`, `notes`. -/
structure DashState where
  textSamples : List TextSample
  currentSampleIndex : Int
  selectedQuality : String
  selectedIssues : List String
  notes : String
deriving Repr, DecidableEq

/-- JS array indexing `l[i]`: `undefined` (here `none`) when out of range. -/
def jsIndex? {α : Type} (l : List α) (i : Int) : Option α :=
  if i < 0 then none else l.get? i.toNat

/-- `submitAnnotation` (App.js lines 93-111), up to the POST: with no
quality selected (`!selectedQuality`, i.e. the empty string) or no current
sample it returns without posting (`none`); otherwise it posts the
`annotationData` body, with `notes: notes || null`. -/
def submitAnnotation (s : DashState) : Option AnnotationData :=
  if s.selectedQuality = "" then none
  else
    match jsIndex? s.textSamples s.currentSampleIndex with
    | none => none
    | some currentSample =>
        some { text_sample_id := currentSample.id
               quality_level := s.selectedQuality
               issue_tags := s.selectedIssues
               notes := if s.notes = "" then none else some s.notes }

/-- The state update `submitAnnotation` performs after a successful POST
(App.js lines 115-123): reset the form and advance the index only when
`currentSampleIndex < textSamples.length - 1`. -/
def submitAdvance (s : DashState) : DashState :=
  { s with
    selectedQuality := ""
    selectedIssues := []
    notes := ""
    currentSampleIndex :=
      if s.currentSampleIndex < (s.textSamples.length : Int) - 1 then
        s.currentSampleIndex + 1
      else s.currentSampleIndex }

/-- The Previous button (App.js line 381):
`setCurrentSampleIndex(Math.max(0, currentSampleIndex - 1))`. -/
def prevSample (s : DashState) : DashState :=
  { s with currentSampleIndex := max 0 (s.currentSampleIndex - 1) }

/-- The Next button (App.js line 390):
`setCurrentSampleIndex(Math.min(textSamples.length - 1, currentSampleIndex + 1))`. -/
def nextSample (s : DashState) : DashState :=
  { s with
    currentSampleIndex :=
      min ((s.textSamples.length : Int) - 1) (s.currentSampleIndex + 1) }

/-- `handleIssueToggle` (App.js lines 223-229): checked appends the value,
unchecked filters out every occurrence. -/
def handleIssueToggle (selectedIssues : List String)
    (issueValue : String) (checked : Bool) : List String :=
  if checked then selectedIssues ++ [issueValue]
  else selectedIssues.filter (fun issue => issue != issueValue)

/-- `submitPairwiseComparison` (App.js lines 134-154), up to the POST:
returns without posting unless exactly two pair texts are loaded, and builds
`text_a_id` and `text_b_id` from `pairwiseTexts[0]` and `pairwiseTexts[1]`. -/
def submitPairwiseComparison (pairwiseTexts : List TextSample)
    (betterTextId : String) : Option ComparisonData :=
  if h : pairwiseTexts.length = 2 then
    some { text_a_id := (pairwiseTexts.get ⟨0, by omega⟩).id
           text_b_id := (pairwiseTexts.get ⟨1, by omega⟩).id
           better_text_id := betterTextId }
  else none

/-- The `progress` computation (App.js line 237):
`textSamples.length > 0 ? ((currentSampleIndex + 1) / textSamples.length) * 100 : 0`,
with JS number arithmetic modelled over `ℚ` (exact here). -/
def progress (s : DashState) : ℚ :=
  if 0 < s.textSamples.length then
    (((s.currentSampleIndex : ℚ) + 1) / (s.textSamples.length : ℚ)) * 100
  else 0

/-- The dashboard state right after mount with a fetched sample list:
`useState` initial values (App.js lines 20-29), `textSamples` set by
`fetchTextSamples`. -/
def initState (samples : List TextSample) : DashState :=
  { textSamples := samples
    currentSampleIndex := 0
    selectedQuality := ""
    selectedIssues := []
    notes := "" }

/-- One user interaction on the annotation tab, as the JSX wires it:
quality chips call `setSelectedQuality(option.value)` only for options of
`qualityOptions` (lines 320-336); issue checkboxes call `handleIssueToggle`
only with values of `issueOptions` (lines 341-350); the notes textarea sets
any string; Previous/Next clamp the index (lines 379-396); a successful
submit resets the form and advances (lines 115-123). -/
inductive Step : DashState → DashState → Prop
  | selectQuality (s : DashState) (o : QualityOption) (ho : o ∈ qualityOptions) :
      Step s { s with selectedQuality := o.value }
  | toggleIssue (s : DashState) (o : IssueOption) (checked : Bool)
      (ho : o ∈ issueOptions) :
      Step s { s with selectedIssues :=
                 handleIssueToggle s.selectedIssues o.value checked }
  | setNotes (s : DashState) (t : String) : Step s { s with notes := t }
  | prev (s : DashState) : Step s (prevSample s)
  | next (s : DashState) : Step s (nextSample s)
  | submit (s : DashState) (r : AnnotationData)
      (h : submitAnnotation s = some r) : Step s (submitAdvance s)

/-- The dashboard states reachable from some freshly mounted state by user
interactions. -/
inductive Reachable : DashState → Prop
  | init (samples : List TextSample) : Reachable (initState samples)
  | step {s t : DashState} : Reachable s → Step s t → Reachable t

/-- Modelled from the spec: the error taxonomy of §7 (ValidationError,
NotFoundError, StoreError) of the backend, whose `server.py` is not among
the given sources. -/
inductive SvcError where
  | validation (msg : String)
  | notFound (msg : String)
  | store (msg : String)
deriving Repr, DecidableEq

/-- Whether a service outcome is a ValidationError. -/
def isValidationError {α : Type} : Except SvcError α → Bool
  | .error (.validation _) => true
  | _ => false

/-- Modelled from the spec: the stored Annotation record of §3 (backend
`server.py` absent); the server-generated `id` and `created_at` are
abstracted into the `id` field. -/
structure AnnotationRecord where
  id : String
  text_sample_id : String
  quality_level : String
  issue_tags : List String
  notes : Option String
deriving Repr, DecidableEq

/-- The three-value quality enum of the spec (§3): good | average | poor. -/
def qualityLevels : List String := ["good", "average", "poor"]

/-- Modelled from the spec: `create_annotation` of §4.3 (backend `server.py`
absent): fails with ValidationError if `quality_level` is not in the
three-value enum; referential validation is deliberately lenient. -/
def create_annotation_svc (text_sample_id quality_level : String)
    (issue_tags : List String) (notes : Option String) :
    Except SvcError AnnotationRecord :=
  if quality_level ∈ qualityLevels then
    .ok { id := "generated"
          text_sample_id := text_sample_id
          quality_level := quality_level
          issue_tags := issue_tags
          notes := notes }
  else .error (.validation "quality_level must be one of: good, average, poor")

/-- Modelled from the spec: `create_comparison` of §4.3 (backend `server.py`
absent): ValidationError if `better_text_id` is not one of the two ids, or
if `text_a_id == text_b_id`. -/
def create_comparison (text_a_id text_b_id better_text_id : String) :
    Except SvcError ComparisonData :=
  if better_text_id ≠ text_a_id ∧ better_text_id ≠ text_b_id then
    .error (.validation "better_text_id must be one of text_a_id, text_b_id")
  else if text_a_id = text_b_id then
    .error (.validation "text_a_id and text_b_id must differ")
  else
    .ok { text_a_id := text_a_id
          text_b_id := text_b_id
          better_text_id := better_text_id }

/-- A data row of an uploaded CSV after parsing: required column `text`,
optional `source` and `topic` defaulting to empty (spec §4.2/§6). -/
structure CsvRow where
  text : String
  source : String := ""
  topic : String := ""
deriving Repr, DecidableEq

/-- Modelled from the spec: one Record Store insert of a TextSample for a
valid row (§4.1/§4.2, backend `server.py` absent); the store assigns a
generated unique id. -/
def insertRow (store : List TextSample) (row : CsvRow) : List TextSample :=
  store ++ [{ id := "sample-" ++ toString store.length
              text := row.text
              source := if row.source = "" then none else some row.source
              topic := if row.topic = "" then none else some row.topic }]

/-- Modelled from the spec: the per-row loop of `ingest_csv` (§4.2, backend
`server.py` absent): a row whose `text` is empty after trimming is skipped
without failing the batch; each valid row becomes one insert and is
counted. -/
def ingest_rows : List TextSample → Nat → List CsvRow → List TextSample × Nat
  | store, inserted, [] => (store, inserted)
  | store, inserted, row :: rest =>
      if row.text.trim = "" then ingest_rows store inserted rest
      else ingest_rows (insertRow store row) (inserted + 1) rest

/-- Modelled from the spec: `ingest_csv` of §4.2 (backend `server.py`
absent) applied to an already CSV-parsed list of data rows; returns the
grown store and `inserted_count`. -/
def ingest_csv (store : List TextSample) (rows : List CsvRow) :
    List TextSample × Nat :=
  ingest_rows store 0 rows

/-- Modelled from the spec: `total_annotations` of the `summarize()` result
(§4.4, backend `server.py` absent): the count of stored Annotation
records. -/
def total_annotations (anns : List AnnotationRecord) : Nat := anns.length

/-- Modelled from the spec: `quality_distribution` of `summarize()` (§4.4,
backend `server.py` absent): each of the three quality-level enum values
maps to the count of annotations with that level; zero-count levels are
present with value 0. -/
def quality_distribution (anns : List AnnotationRecord) :
    List (String × Nat) :=
  qualityLevels.map (fun level =>
    (level, (anns.filter (fun a => a.quality_level == level)).length))

/-- Modelled from the spec: `pick_random_pair` of §4.3 (backend `server.py`
absent): empty if fewer than 2 samples exist, otherwise two distinct
samples drawn without replacement; the random draws are abstracted as
arbitrary indices `i`, `j` reduced modulo the available range. -/
def pick_random_pair (samples : List TextSample) (i j : Nat) :
    List TextSample :=
  if hlt : samples.length < 2 then []
  else
    have h0 : i % samples.length < samples.length :=
      Nat.mod_lt _ (by omega)
    let first := samples.get ⟨i % samples.length, h0⟩
    let rest := samples.eraseIdx (i % samples.length)
    have h1 : rest.length = samples.length - 1 := by
      simp only [rest]
      rw [List.length_eraseIdx]
      simp [h0]
    have h2 : j % rest.length < rest.length :=
      Nat.mod_lt _ (by omega)
    [first, rest.get ⟨j % rest.length, h2⟩]

/-- A concrete dashboard state used to instantiate theorems: one sample,
quality selected, nothing else set. -/
def demoState : DashState :=
  { textSamples := [{ id := "w", text := "demo text" }]
    currentSampleIndex := 0
    selectedQuality := "good"
    selectedIssues := []
    notes := "" }

/-- The request body `submitAnnotation` builds from `demoState`. -/
def demoReq : AnnotationData :=
  { text_sample_id := "w", quality_level := "good", issue_tags := [],
    notes := none }

/-- A concrete stored annotation used to instantiate theorems. -/
def demoRec : AnnotationRecord :=
  { id := "1", text_sample_id := "w", quality_level := "good",
    issue_tags := [], notes := none }

/-- Two concrete text samples with distinct ids. -/
def demoSamples : List TextSample :=
  [{ id := "a", text := "alpha" }, { id := "b", text := "beta" }]

/-- Every user interaction leaves the loaded sample list unchanged. -/
theorem step_textSamples {s t : DashState} (h : Step s t) :
    t.textSamples = s.textSamples := by
  cases h <;> rfl

/-- The form-state invariant maintained by the annotation tab: the selected
quality is empty or one of the selectable values, and every selected issue
is one of the issue-option values. -/
def stateInv (s : DashState) : Prop :=
  (s.selectedQuality = "" ∨ s.selectedQuality ∈ qualityValues) ∧
  (∀ v ∈ s.selectedIssues, v ∈ issueValues)

/-- Every reachable dashboard state satisfies the form-state invariant. -/
theorem reachable_inv {s : DashState} (h : Reachable s) : stateInv s := by
  induction h with
  | init samples => exact ⟨Or.inl rfl, by simp [initState]⟩
  | step hs hstep ih =>
    cases hstep with
    | selectQuality o ho =>
        exact ⟨Or.inr (List.mem_map_of_mem _ ho), ih.2⟩
    | toggleIssue o checked ho =>
        refine ⟨ih.1, ?_⟩
        intro v hv
        cases checked with
        | true =>
            simp [handleIssueToggle] at hv
            rcases hv with hv | rfl
            · exact ih.2 v hv
            · exact List.mem_map_of_mem _ ho
        | false =>
            simp [handleIssueToggle, List.mem_filter] at hv
            exact ih.2 v hv.1
    | setNotes t' => exact ⟨ih.1, ih.2⟩
    | prev => exact ⟨ih.1, ih.2⟩
    | next => exact ⟨ih.1, ih.2⟩
    | submit r hr => exact ⟨Or.inl rfl, by simp [submitAdvance]⟩

/-- What a successful `submitAnnotation` tells about its request body. -/
theorem submitAnnotation_some {s : DashState} {r : AnnotationData}
    (h : submitAnnotation s = some r) :
    s.selectedQuality ≠ "" ∧ r.quality_level = s.selectedQuality ∧
    r.issue_tags = s.selectedIssues ∧
    r.notes = (if s.notes = "" then none else some s.notes) ∧
    ∃ cs, jsIndex? s.textSamples s.currentSampleIndex = some cs ∧
      r.text_sample_id = cs.id := by
  by_cases hq : s.selectedQuality = ""
  · simp [ submitAnnotation, hq] at h
  · cases hcs : jsIndex? s.textSamples s.currentSampleIndex with
    | none => simp [ submitAnnotation, hq, hcs] at h
    | some cs =>
        simp [ submitAnnotation, hq, hcs] at h
        subst h
        exact ⟨hq, rfl, rfl, rfl, cs, rfl, rfl⟩

/-- C1: every annotation created through the dashboard has `quality_level`
in good/average/poor: those are the only selectable values,
`submitAnnotation` sends no POST while no quality level is selected, a
request posted from a reachable state carries a selectable value, and the
backend (modelled from the spec) rejects any other value with
ValidationError. -/
theorem quality_level_enum_only :
    (qualityValues = ["good", "average", "poor"]) ∧
    (∀ s : DashState, s.selectedQuality = "" → submitAnnotation s = none) ∧
    (∀ s : DashState, Reachable s → ∀ r : AnnotationData,
        submitAnnotation s = some r → r.quality_level ∈ qualityValues) ∧
    (∀ (tid q : String) (tags : List String) (nts : Option String),
        q ∉ qualityLevels →
        create_annotation_svc tid q tags nts =
          .error (.validation
            "quality_level must be one of: good, average, poor")) := by
  refine ⟨rfl, ?_, ?_, ?_⟩
  · intro s hq
    simp [ submitAnnotation, hq]
  · intro s hs r hr
    obtain ⟨hq, hql, -, -, -⟩ := submitAnnotation_some hr
    rcases (reachable_inv hs).1 with h | h
    · exact absurd h hq
    · exact hql ▸ h
  · intro tid q tags nts hq
    simp [create_annotation_svc, hq]

/-- C1 witness: with no quality selected nothing is posted, and the backend
rejects the out-of-enum value "great". -/
theorem quality_level_enum_only_witness :
    submitAnnotation (initState demoSamples) = none ∧
    create_annotation_svc "x" "great" [] none =
      .error (.validation
        "quality_level must be one of: good, average, poor") :=
  ⟨quality_level_enum_only.2.1 (initState demoSamples) rfl,
   quality_level_enum_only.2.2.2 "x" "great" [] none (by decide)⟩

/-- C5: in every reachable state the selected issues, and hence the
`issue_tags` sent verbatim by `submitAnnotation`, form a list drawn only
from the four issue-option enum values. -/
theorem issue_tags_from_enum (s : DashState) (h : Reachable s) :
    (∀ v ∈ s.selectedIssues, v ∈ issueValues) ∧
    (∀ r : AnnotationData, submitAnnotation s = some r →
        r.issue_tags = s.selectedIssues ∧ ∀ v ∈ r.issue_tags, v ∈ issueValues) := by
  have hinv := reachable_inv h
  refine ⟨hinv.2, ?_⟩
  intro r hr
  obtain ⟨-, -, htags, -, -⟩ := submitAnnotation_some hr
  exact ⟨htags, fun v hv => hinv.2 v (htags ▸ hv)⟩

/-- C5 witness: the invariant instantiated at a freshly mounted dashboard. -/
theorem issue_tags_from_enum_witness :
    (∀ v ∈ (initState demoSamples).selectedIssues, v ∈ issueValues) ∧
    (∀ r : AnnotationData, submitAnnotation (initState demoSamples) = some r →
        r.issue_tags = (initState demoSamples).selectedIssues ∧
        ∀ v ∈ r.issue_tags, v ∈ issueValues) :=
  issue_tags_from_enum (initState demoSamples) (Reachable.init demoSamples)

/-- C9: in every request body built by `submitAnnotation`, `notes` is null
exactly when the notes text is empty, and otherwise equals the entered text
unchanged (`notes: notes || null`). -/
theorem notes_null_iff_empty (s : DashState) (r : AnnotationData)
    (h : submitAnnotation s = some r) :
    (r.notes = none ↔ s.notes = "") ∧
    (s.notes ≠ "" → r.notes = some s.notes) := by
  obtain ⟨-, -, -, hnotes, -⟩ := submitAnnotation_some h
  constructor
  · constructor
    · intro hn
      by_contra hne
      rw [hnotes] at hn
      simp [hne] at hn
    · intro he
      rw [hnotes, if_pos he]
  · intro hne
    rw [hnotes, if_neg hne]

/-- C9 witness: the theorem instantiated at `demoState` (empty notes), whose
request body carries `notes = none`. -/
theorem notes_null_iff_empty_witness :
    (demoReq.notes = none ↔ demoState.notes = "") ∧
    (demoState.notes ≠ "" → demoReq.notes = some demoState.notes) :=
  notes_null_iff_empty demoState demoReq (by decide)

/-- Without exactly two loaded pair texts, `submitPairwiseComparison`
returns before building any request. -/
theorem submitPairwise_none (pts : List TextSample) (btid : String)
    (h : pts.length ≠ 2) : submitPairwiseComparison pts btid = none := by
  simp [ submitPairwiseComparison, h]

/-- C2: every pairwise comparison the dashboard submits satisfies
`better_text_id ∈ {text_a_id, text_b_id}`: the request is built from the
two loaded pair texts and the select buttons pass one of their ids; with a
pair count other than two nothing is posted; and the backend (modelled from
the spec) rejects a foreign `better_text_id` or `text_a_id == text_b_id`
with ValidationError. -/
theorem better_text_id_membership :
    (∀ (pts : List TextSample) (t : TextSample) (r : ComparisonData),
        t ∈ pts → submitPairwiseComparison pts t.id = some r →
        r.better_text_id = r.text_a_id ∨ r.better_text_id = r.text_b_id) ∧
    (∀ (pts : List TextSample) (btid : String), pts.length ≠ 2 →
        submitPairwiseComparison pts btid = none) ∧
    (∀ a b better : String, better ≠ a → better ≠ b →
        create_comparison a b better =
          .error (.validation
            "better_text_id must be one of text_a_id, text_b_id")) ∧
    (∀ a better : String,
        isValidationError (create_comparison a a better) = true) := by
  refine ⟨?_, submitPairwise_none, ?_, ?_⟩
  · intro pts t r ht hr
    by_cases hl : pts.length = 2
    · obtain ⟨x, y, rfl⟩ : ∃ a b, pts = [a, b] := by
        cases pts with
        | nil => simp at hl
        | cons x tl =>
          cases tl with
          | nil => simp at hl
          | cons y tl2 =>
            cases tl2 with
            | nil => exact ⟨x, y, rfl⟩
            | cons z tl3 => simp [List.length_cons] at hl
      simp [ submitPairwiseComparison] at hr
      rcases List.mem_cons.mp ht with rfl | ht'
      · left
        rw [show r = _ from hr.symm]
      · rcases List.mem_singleton.mp ht' with rfl
        right
        rw [show r = _ from hr.symm]
    · rw [submitPairwise_none pts t.id hl] at hr
      exact absurd hr (by simp)
  · intro a b better h1 h2
    simp [create_comparison, h1, h2]
  · intro a better
    by_cases h : better = a <;>
      simp [create_comparison, isValidationError, h]

/-- C2 witness: the backend rejects a comparison whose two text ids
coincide. -/
theorem better_text_id_membership_witness :
    isValidationError (create_comparison "a" "a" "a") = true :=
  better_text_id_membership.2.2.2 "a" "a"

/-- Within a list whose mapped ids are pairwise distinct, every element left
after erasing position `i` has an id different from the erased element's. -/
theorem eraseIdx_id_ne (l : List TextSample) (i : Nat) (hi : i < l.length)
    (hnd : (l.map TextSample.id).Nodup) :
    ∀ b ∈ l.eraseIdx i, b.id ≠ (l.get ⟨i, hi⟩).id := by
  induction l generalizing i with
  | nil => simp at hi
  | cons a l ih =>
      cases i with
      | zero =>
          intro b hb he
          have ha : a.id ∉ l.map TextSample.id := (List.nodup_cons.mp hnd).1
          simp only [List.eraseIdx] at hb
          exact ha (he ▸ List.mem_map_of_mem _ hb)
      | succ k =>
          intro b hb
          have hk : k < l.length := by simpa using hi
          simp only [List.eraseIdx] at hb
          rcases List.mem_cons.mp hb with rfl | hb'
          · intro he
            have ha : b.id ∉ l.map TextSample.id := (List.nodup_cons.mp hnd).1
            exact ha (he ▸ List.mem_map_of_mem _ (l.get_mem k hk))
          · exact ih k hk (List.nodup_cons.mp hnd).2 b hb'

/-- C7: requesting a random pair (modelled from the spec) with fewer than
two samples returns an empty result and never an error; with at least two
samples it returns two samples with distinct ids; and the dashboard never
submits a comparison unless exactly two pair texts were returned. -/
theorem random_pair_guards (samples : List TextSample) (i j : Nat)
    (hnd : (samples.map TextSample.id).Nodup) :
    (samples.length < 2 → pick_random_pair samples i j = []) ∧
    (2 ≤ samples.length →
      ∃ a b, pick_random_pair samples i j = [a, b] ∧ a.id ≠ b.id) ∧
    (∀ (pts : List TextSample) (btid : String), pts.length ≠ 2 →
      submitPairwiseComparison pts btid = none) := by
  refine ⟨?_, ?_, fun pts btid h => submitPairwise_none pts btid h⟩
  · intro h
    simp [pick_random_pair, h]
  · intro h
    have hlt : ¬ samples.length < 2 := by omega
    have h0 : i % samples.length < samples.length := Nat.mod_lt _ (by omega)
    have hrlen : (samples.eraseIdx (i % samples.length)).length =
        samples.length - 1 := by
      rw [List.length_eraseIdx]
      simp [h0]
    have h2 : j % (samples.eraseIdx (i % samples.length)).length <
        (samples.eraseIdx (i % samples.length)).length := by
      apply Nat.mod_lt
      omega
    refine ⟨samples.get ⟨i % samples.length, h0⟩,
            (samples.eraseIdx (i % samples.length)).get
              ⟨j % (samples.eraseIdx (i % samples.length)).length, h2⟩,
            ?_, ?_⟩
    · simp only [pick_random_pair]
      rw [dif_neg hlt]
    · exact Ne.symm (eraseIdx_id_ne samples _ h0 hnd _ (List.get_mem _ _ _))

/-- C7 witness: the theorem instantiated at two concrete samples with
distinct ids. -/
theorem random_pair_guards_witness :
    (demoSamples.length < 2 → pick_random_pair demoSamples 0 0 = []) ∧
    (2 ≤ demoSamples.length →
      ∃ a b, pick_random_pair demoSamples 0 0 = [a, b] ∧ a.id ≠ b.id) ∧
    (∀ (pts : List TextSample) (btid : String), pts.length ≠ 2 →
      submitPairwiseComparison pts btid = none) :=
  random_pair_guards demoSamples 0 0 (by decide)

/-- The row loop counts exactly the rows whose trimmed text is non-empty,
on top of the count accumulated so far. -/
theorem ingest_rows_count (rows : List CsvRow) :
    ∀ (store : List TextSample) (inserted : Nat),
    (ingest_rows store inserted rows).2 =
      inserted + (rows.filter (fun row => row.text.trim != "")).length := by
  induction rows with
  | nil =>
      intro store inserted
      simp [ingest_rows]
  | cons row rest ih =>
      intro store inserted
      by_cases h : row.text.trim = ""
      · simp [ingest_rows, h, ih]
      · simp only [ingest_rows, if_neg h]
        rw [ih]
        simp [h]
        omega

/-- The row loop inserts exactly the rows whose trimmed text is non-empty
into the store. -/
theorem ingest_rows_store (rows : List CsvRow) :
    ∀ (store : List TextSample) (inserted : Nat),
    (ingest_rows store inserted rows).1.length =
      store.length + (rows.filter (fun row => row.text.trim != "")).length := by
  induction rows with
  | nil =>
      intro store inserted
      simp [ingest_rows]
  | cons row rest ih =>
      intro store inserted
      by_cases h : row.text.trim = ""
      · simp [ingest_rows, h, ih]
      · simp only [ingest_rows, if_neg h]
        rw [ih]
        simp [insertRow, h]
        omega

/-- C3: for a parseable CSV upload (modelled from the spec), the returned
`inserted_count` equals the number of data rows whose `text` is non-empty
after trimming, and the store grows by exactly those rows: empty-text rows
are skipped without failing the batch. -/
theorem csv_inserted_count (store : List TextSample) (rows : List CsvRow) :
    (ingest_csv store rows).2 =
      (rows.filter (fun row => row.text.trim != "")).length ∧
    (ingest_csv store rows).1.length =
      store.length + (rows.filter (fun row => row.text.trim != "")).length := by
  constructor
  · rw [ingest_csv, ingest_rows_count rows store 0]
    omega
  · rw [ingest_csv, ingest_rows_store rows store 0]

/-- C4: with zero text samples the progress computation yields the defined
value 0 and performs no division: the division sits under the strict
positivity guard of the sample count. -/
theorem progress_zero_samples (s : DashState)
    (h : s.textSamples.length = 0) : progress s = 0 := by
  simp [progress, h]

/-- C4 witness: the progress of a dashboard with no samples is 0. -/
theorem progress_zero_samples_witness : progress (initState []) = 0 :=
  progress_zero_samples (initState []) rfl

/-- Summing an indicator over a list that does not contain the probed value
gives 0. -/
theorem indicator_sum_zero (x : String) (l : List String) (hx : x ∉ l) :
    (l.map (fun v => if x = v then (1 : Nat) else 0)).sum = 0 := by
  induction l with
  | nil => simp
  | cons a l ih =>
      simp only [List.map_cons, List.sum_cons]
      have hxa : x ≠ a := fun h => hx (h ▸ List.mem_cons_self a l)
      rw [if_neg hxa, ih (fun h => hx (List.mem_cons_of_mem a h))]

/-- Summing an indicator over a duplicate-free list containing the probed
value gives 1. -/
theorem indicator_sum_one (x : String) (l : List String) (hnd : l.Nodup)
    (hx : x ∈ l) :
    (l.map (fun v => if x = v then (1 : Nat) else 0)).sum = 1 := by
  induction l with
  | nil => simp at hx
  | cons a l ih =>
      simp only [List.map_cons, List.sum_cons]
      rcases List.mem_cons.mp hx with h | h
      · rw [if_pos h, indicator_sum_zero x l (h ▸ (List.nodup_cons.mp hnd).1)]
      · have hxa : x ≠ a := fun he => (List.nodup_cons.mp hnd).1 (he ▸ h)
        rw [if_neg hxa, ih (List.nodup_cons.mp hnd).2 h]

/-- Mapped sums distribute over pointwise addition. -/
theorem sum_map_add (l : List String) (f g : String → Nat) :
    (l.map (fun v => f v + g v)).sum = (l.map f).sum + (l.map g).sum := by
  induction l with
  | nil => simp
  | cons a l ih =>
      simp only [List.map_cons, List.sum_cons, ih]
      omega

/-- The per-level counts of `quality_distribution` partition annotations
whose level lies in the enum, so they sum to the total count. -/
theorem distribution_sum (anns : List AnnotationRecord)
    (h : ∀ a ∈ anns, a.quality_level ∈ qualityLevels) :
    ((quality_distribution anns).map Prod.snd).sum = anns.length := by
  induction anns with
  | nil => simp [quality_distribution, qualityLevels]
  | cons a anns ih =>
      have ha := h a (List.mem_cons_self _ _)
      have hrest : ∀ b ∈ anns, b.quality_level ∈ qualityLevels :=
        fun b hb => h b (List.mem_cons_of_mem _ hb)
      have hcons : ∀ v : String,
          ((a :: anns).filter (fun x => x.quality_level == v)).length =
          (if a.quality_level = v then 1 else 0) +
            (anns.filter (fun x => x.quality_level == v)).length := by
        intro v
        by_cases hv : a.quality_level = v
        · simp [List.filter_cons, hv]
          omega
        · simp [List.filter_cons, hv]
      have hmapeq :
          (quality_distribution (a :: anns)).map Prod.snd =
          qualityLevels.map (fun v =>
            (if a.quality_level = v then 1 else 0) +
              (anns.filter (fun x => x.quality_level == v)).length) := by
        simp only [quality_distribution, List.map_map]
        exact List.map_congr_left (fun v _ => hcons v)
      rw [hmapeq, sum_map_add, indicator_sum_one a.quality_level qualityLevels
        (by simp [qualityLevels]) ha]
      have : (qualityLevels.map (fun v =>
          (anns.filter (fun x => x.quality_level == v)).length)).sum =
          anns.length := by
        rw [← ih hrest]
        simp [quality_distribution, List.map_map]
        rfl
      rw [this]
      simp [List.length_cons]
      omega

/-- C6: the analytics `quality_distribution` (modelled from the spec) maps
each of the three quality levels to a count, zero-count levels included,
and when every stored annotation carries an enum level those counts sum to
`total_annotations`. -/
theorem quality_distribution_sums (anns : List AnnotationRecord)
    (h : ∀ a ∈ anns, a.quality_level ∈ qualityLevels) :
    ((quality_distribution anns).map Prod.fst = qualityLevels) ∧
    ((quality_distribution anns).map Prod.snd).sum = total_annotations anns := by
  constructor
  · simp [quality_distribution, List.map_map]
    rfl
  · exact distribution_sum anns h

/-- C6 witness: the distribution over one stored "good" annotation lists
all three levels and sums to the total of 1. -/
theorem quality_distribution_sums_witness :
    ((quality_distribution [demoRec]).map Prod.fst = qualityLevels) ∧
    ((quality_distribution [demoRec]).map Prod.snd).sum =
      total_annotations [demoRec] :=
  quality_distribution_sums [demoRec] (by decide)

/-- The sample index denotes a valid position of `textSamples`. -/
def IndexInRange (s : DashState) : Prop :=
  0 ≤ s.currentSampleIndex ∧
  s.currentSampleIndex ≤ (s.textSamples.length : Int) - 1

/-- A single interaction keeps the sample index in range when samples
exist: Previous clamps at 0, Next clamps at the last position, and the
submit auto-advance increments only below the last position. -/
theorem step_index_in_range {s t : DashState}
    (h0 : 0 < s.textSamples.length) (hs : IndexInRange s) (hst : Step s t) :
    IndexInRange t := by
  obtain ⟨h1, h2⟩ := hs
  have hlen : (1 : Int) ≤ (s.textSamples.length : Int) := by exact_mod_cast h0
  cases hst with
  | selectQuality o ho => exact ⟨h1, h2⟩
  | toggleIssue o checked ho => exact ⟨h1, h2⟩
  | setNotes t' => exact ⟨h1, h2⟩
  | prev =>
      constructor
      · exact le_max_left 0 _
      · show max 0 (s.currentSampleIndex - 1) ≤ (s.textSamples.length : Int) - 1
        exact max_le (by omega) (by omega)
  | next =>
      constructor
      · show (0 : Int) ≤
            min ((s.textSamples.length : Int) - 1) (s.currentSampleIndex + 1)
        exact le_min (by omega) (by omega)
      · show min ((s.textSamples.length : Int) - 1) (s.currentSampleIndex + 1) ≤
            (s.textSamples.length : Int) - 1
        exact min_le_left _ _
  | submit r hr =>
      constructor
      · show (0 : Int) ≤
            (if s.currentSampleIndex < (s.textSamples.length : Int) - 1
             then s.currentSampleIndex + 1
             else s.currentSampleIndex)
        split <;> omega
      · show (if s.currentSampleIndex < (s.textSamples.length : Int) - 1
              then s.currentSampleIndex + 1
              else s.currentSampleIndex) ≤ (s.textSamples.length : Int) - 1
        split <;> omega

/-- A whole interaction sequence leaves the loaded sample list unchanged. -/
theorem steps_textSamples {s t : DashState}
    (h : Relation.ReflTransGen Step s t) : t.textSamples = s.textSamples := by
  induction h with
  | refl => rfl
  | tail hab hbc ih => rw [step_textSamples hbc, ih]

/-- C8: from any state with samples present and a valid index, every
sequence of Previous/Next clicks, form edits and annotation submissions
keeps `currentSampleIndex` within `[0, textSamples.length - 1]`. -/
theorem sample_index_in_range (s t : DashState)
    (h0 : 0 < s.textSamples.length) (hs : IndexInRange s)
    (h : Relation.ReflTransGen Step s t) : IndexInRange t := by
  induction h with
  | refl => exact hs
  | tail hab hbc ih =>
      refine step_index_in_range ?_ ih hbc
      rw [steps_textSamples hab]
      exact h0

/-- C8 witness: after one Next click from the mounted two-sample dashboard
the index is still in range. -/
theorem sample_index_in_range_witness :
    IndexInRange (nextSample (initState demoSamples)) :=
  sample_index_in_range (initState demoSamples)
    (nextSample (initState demoSamples)) (by decide) ⟨by decide, by decide⟩
    (Relation.ReflTransGen.single (Step.next (initState demoSamples)))

/-- Removing one value by filtering leaves the counts of all other values
unchanged. -/
theorem count_filter_ne (l : List String) (v x : String) (hx : x ≠ v) :
    (l.filter (fun issue => issue != v)).count x = l.count x := by
  induction l with
  | nil => rfl
  | cons a l ih =>
      by_cases ha : a = v
      · subst ha
        simp [List.filter_cons, List.count_cons, hx, ih]
      · simp [List.filter_cons, List.count_cons, ha, ih]

/-- C10: `handleIssueToggle` is a set-like toggle: for a value not in the
list, toggling on appends exactly that value; toggling off removes every
occurrence of the value while keeping the remaining elements in order
(a sublist with all other counts unchanged); and toggling on then off
restores the original list. -/
theorem issue_toggle_set_like (l : List String) (v : String) (hv : v ∉ l) :
    handleIssueToggle l v true = l ++ [v] ∧
    v ∉ handleIssueToggle l v false ∧
    (handleIssueToggle l v false).Sublist l ∧
    (∀ x : String, x ≠ v →
      (handleIssueToggle l v false).count x = l.count x) ∧
    handleIssueToggle (handleIssueToggle l v true) v false = l := by
  refine ⟨rfl, ?_, ?_, ?_, ?_⟩
  · simp [handleIssueToggle]
  · show (List.filter (fun issue => issue != v) l).Sublist l
    exact List.filter_sublist l
  · intro x hx
    simpa [handleIssueToggle] using count_filter_ne l v x hx
  · show List.filter (fun issue => issue != v) (l ++ [v]) = l
    rw [List.filter_append]
    have h1 : List.filter (fun issue => issue != v) l = l :=
      List.filter_eq_self.mpr (fun a ha => by
        simp only [bne_iff_ne, ne_eq]
        exact fun h => hv (h ▸ ha))
    have h2 : List.filter (fun issue => issue != v) [v] = [] := by simp
    rw [h1, h2, List.append_nil]

/-- C10 witness: the toggle laws at a concrete selected-issues list and a
value not in it. -/
theorem issue_toggle_set_like_witness :
    handleIssueToggle ["grammar_error"] "harmful_unsafe" true =
      ["grammar_error"] ++ ["harmful_unsafe"] ∧
    "harmful_unsafe" ∉ handleIssueToggle ["grammar_error"] "harmful_unsafe" false ∧
    (handleIssueToggle ["grammar_error"] "harmful_unsafe" false).Sublist
      ["grammar_error"] ∧
    (∀ x : String, x ≠ "harmful_unsafe" →
      (handleIssueToggle ["grammar_error"] "harmful_unsafe" false).count x =
        (["grammar_error"] : List String).count x) ∧
    handleIssueToggle
      (handleIssueToggle ["grammar_error"] "harmful_unsafe" true)
      "harmful_unsafe" false = ["grammar_error"] :=
  issue_toggle_set_like ["grammar_error"] "harmful_unsafe" (by decide)

end DataAnnot
